import Mathlib

/-!
Verification of the quiz data pipeline of a browser quiz runner
(`utils.js` and the quiz controller): schema validation, multi-answer
detection, grading, option shuffling, answer-selection state and the
session-store expiry logic. JavaScript values are shallowly embedded as
`JVal`; operations that can raise a `TypeError` in JavaScript
(calling `toUpperCase`/`toLowerCase` on a non-string) return `Except`.
-/

/-- A JavaScript value as it occurs in the quiz data pipeline: `undefined`,
`null`, booleans, (integer) numbers, strings, arrays and plain objects
(association lists of string keys, in insertion order, keys distinct in
real JS objects). -/
inductive JVal where
  | vundefined
  | vnull
  | vbool (b : Bool)
  | vnum (n : Int)
  | vstr (s : String)
  | varr (elems : List JVal)
  | vobj (fields : List (String × JVal))

/-- JavaScript truthiness: `undefined`, `null`, `false`, `0` and `""` are
falsy; arrays and objects are always truthy. -/
def truthy : JVal → Bool
  | .vundefined => false
  | .vnull => false
  | .vbool b => b
  | .vnum n => decide (n ≠ 0)
  | .vstr s => decide (s ≠ "")
  | .varr _ => true
  | .vobj _ => true

/-- `typeof v === 'object'`: true for `null`, arrays and objects. -/
def isObjectType : JVal → Bool
  | .vnull => true
  | .varr _ => true
  | .vobj _ => true
  | _ => false

/-- `typeof v === 'string'`. -/
def isStringJ : JVal → Bool
  | .vstr _ => true
  | _ => false

/-- `v === undefined` (used only to state the spec's option-likeness). -/
def isUndef : JVal → Bool
  | .vundefined => true
  | _ => false

/-- First-match association lookup (JS object property read order). -/
def assocGet [DecidableEq κ] : List (κ × ω) → κ → Option ω
  | [], _ => none
  | p :: ps, k => if p.1 = k then some p.2 else assocGet ps k

/-- JS object property write: overwrite the existing key in place, else
append the new key at the end (insertion order). -/
def assocSet [DecidableEq κ] (l : List (κ × ω)) (k : κ) (x : ω) : List (κ × ω) :=
  if l.any (fun p => decide (p.1 = k)) then
    l.map (fun p => if p.1 = k then (k, x) else p)
  else
    l ++ [(k, x)]

/-- Property access `v[key]`: `undefined` when absent or when `v` is not an
object. (In JS, reading a property of `null`/`undefined` throws; every
property read in the embedded functions is guarded, so this totalization is
never observed.) -/
def getProp (v : JVal) (key : String) : JVal :=
  match v with
  | .vobj fields => (assocGet fields key).getD .vundefined
  | _ => .vundefined

/-- Object spread/assignment `{...v, key: x}` for the prepared-question
record; identity on non-objects (never reached on non-objects). -/
def setProp (v : JVal) (key : String) (x : JVal) : JVal :=
  match v with
  | .vobj fields => .vobj (assocSet fields key x)
  | _ => v

/-- `Object.entries`: fields of an object, index/value pairs of an array. -/
def objEntries : JVal → List (String × JVal)
  | .vobj fields => fields
  | .varr l => l.enum.map (fun p => (toString p.1, p.2))
  | _ => []

/-- `Object.keys`. -/
def objKeys (v : JVal) : List String :=
  (objEntries v).map (·.1)

/-- JS strict equality `===`. Distinct arrays/objects are never strictly
equal (reference equality); the embedded code only ever compares values that
are freshly constructed or primitive, so distinct references are modelled
as unequal. -/
def strictEq : JVal → JVal → Bool
  | .vundefined, .vundefined => true
  | .vnull, .vnull => true
  | .vbool a, .vbool b => a == b
  | .vnum a, .vnum b => a == b
  | .vstr a, .vstr b => a == b
  | _, _ => false

/-- `s.toUpperCase()` on a string: character-wise ASCII upper-casing (the
quiz option keys are ASCII letters). -/
def jsUpper (s : String) : String := ⟨s.data.map Char.toUpper⟩

/-- `s.toLowerCase()` on a string: character-wise ASCII lower-casing. -/
def jsLower (s : String) : String := ⟨s.data.map Char.toLower⟩

/-- `v.toUpperCase()`: a `TypeError` unless `v` is a string. -/
def jsToUpper : JVal → Except String String
  | .vstr s => .ok (jsUpper s)
  | _ => .error "TypeError: toUpperCase is not a function"

/-- `v.toLowerCase()`: a `TypeError` unless `v` is a string. -/
def jsToLower : JVal → Except String String
  | .vstr s => .ok (jsLower s)
  | _ => .error "TypeError: toLowerCase is not a function"

mutual

/-- JS string conversion `String(v)` as used for template literals and
object keys. -/
def jsToString : JVal → String
  | .vundefined => "undefined"
  | .vnull => "null"
  | .vbool b => if b then "true" else "false"
  | .vnum n => toString n
  | .vstr s => s
  | .varr l => String.intercalate "," (jsToStringList l)
  | .vobj _ => "[object Object]"

/-- Element conversion of `Array.prototype.join`: `null` and `undefined`
become the empty string, other elements are converted with `String(·)`. -/
def jsToStringList : List JVal → List String
  | [] => []
  | .vundefined :: xs => "" :: jsToStringList xs
  | .vnull :: xs => "" :: jsToStringList xs
  | x :: xs => jsToString x :: jsToStringList xs

end

/-- `arr.join(sep)`. -/
def jsJoin (sep : String) (l : List JVal) : String :=
  String.intercalate sep (jsToStringList l)

/-- Sequential effectful map: JS `Array.prototype.map` over a callback that
may throw; the first exception aborts the whole call. -/
def mapJs (f : α → Except String β) : List α → Except String (List β)
  | [] => .ok []
  | x :: xs => do
    let y ← f x
    let ys ← mapJs f xs
    .ok (y :: ys)

/-- A diagnostic of `validateQuestion`: the template literal
`Domanda <index + 1>: <text>`, carrying the 1-based question number. -/
def domandaMsg (index : Nat) (text : String) : String :=
  "Domanda " ++ toString (index + 1) ++ ": " ++ text

/-- The per-question diagnostics of `validateQuestion` for the
`question_option` field (source `utils.js` lines 57-72). -/
def optionFieldErrors (qo : JVal) (index : Nat) : List String :=
  if !truthy qo then
    [domandaMsg index "Manca question_option"]
  else
    match qo with
    | .varr l =>
        if l.length < 2 then [domandaMsg index "Deve avere almeno 2 opzioni"]
        else []
    | .vobj fields =>
        if fields.length < 2 then [domandaMsg index "Deve avere almeno 2 opzioni"]
        else []
    | _ =>
        [domandaMsg index "question_option deve essere un array o un oggetto"]

/-- `validateQuestion(question, index)` from `utils.js` lines 45-82:
returns `(isValid, errors)`. -/
def validateQuestion (question : JVal) (index : Nat) : Bool × List String :=
  if !(truthy question && isObjectType question) then
    (false, [domandaMsg index "Non è un oggetto valido"])
  else
    let qt := getProp question "question_text"
    let e1 : List String :=
      if !(truthy qt && isStringJ qt) then
        [domandaMsg index "Manca question_text o non è una stringa"]
      else []
    let e2 := optionFieldErrors (getProp question "question_option") index
    let ao := getProp question "answer_option"
    let e3 : List String :=
      if !(truthy ao && isStringJ ao) then
        [domandaMsg index "Manca answer_option o non è una stringa"]
      else []
    let errors := e1 ++ e2 ++ e3
    (errors.isEmpty, errors)

/-- `isMultiAnswerQuestion(question)` from `utils.js` lines 165-175: true
iff `answer_option_text` is truthy, object-typed, and has more than one
key. -/
def isMultiAnswerQuestion (question : JVal) : Bool :=
  let aot := getProp question "answer_option_text"
  if !truthy aot then false
  else if isObjectType aot then decide (1 < (objKeys aot).length)
  else false

/-- `getCorrectAnswers(question)` from `utils.js` lines 182-194: the keys of
`answer_option_text` upper-cased when it is a truthy object, else the
upper-cased `answer_option` when truthy (a `TypeError` when that is a
truthy non-string), else empty. -/
def getCorrectAnswers (question : JVal) : Except String (List String) :=
  let aot := getProp question "answer_option_text"
  if truthy aot && isObjectType aot then
    .ok ((objKeys aot).map jsUpper)
  else if truthy (getProp question "answer_option") then do
    let s ← jsToUpper (getProp question "answer_option")
    .ok [s]
  else
    .ok []

/-- `getOptionText(question, optionKey)` from `utils.js` lines 140-158.
Returns the matched option text (a raw JS value) or `''`; lower-casing a
non-string key in the legacy object branch is a `TypeError`. -/
def getOptionText (question optionKey : JVal) : Except String JVal :=
  let qo := getProp question "question_option"
  if !truthy qo then .ok (.vstr "")
  else
    match qo with
    | .varr l =>
        match l.find? (fun opt =>
            truthy opt && isObjectType opt && strictEq (getProp opt "option") optionKey) with
        | some opt =>
            .ok (if truthy (getProp opt "option_text") then getProp opt "option_text" else .vstr "")
        | none => .ok (.vstr "")
    | .vobj _ => do
        let lowerKey ← jsToLower optionKey
        let t := getProp qo lowerKey
        .ok (if truthy t then t else .vstr "")
    | _ => .ok (.vstr "")

/-- The normalization of the submitted answer in the multi-answer grading
branch of `gradeQuiz` (`utils.js` line 297): an array is taken as is, a
truthy value becomes a singleton, anything else the empty selection. -/
def multiUserSelections (userAnswer : JVal) : List JVal :=
  match userAnswer with
  | .varr l => l
  | ua => if truthy ua then [ua] else []

/-- The multi-answer correctness check of `gradeQuiz` (`utils.js` lines
295-303): the upper-cased submission has the same length as the upper-cased
correct keys and every correct key occurs in it. -/
def multiIsCorrect (correctAnswers : List String) (userAnswer : JVal) : Except String Bool := do
  let userSelectionsUpper ← mapJs jsToUpper (multiUserSelections userAnswer)
  let correctAnswersUpper := correctAnswers.map jsUpper
  .ok (correctAnswersUpper.length == userSelectionsUpper.length &&
       correctAnswersUpper.all (fun ans => userSelectionsUpper.contains ans))

/-- The single-answer correctness check of `gradeQuiz` (`utils.js` lines
304-309): a falsy submission is incorrect (short-circuit, nothing is
called on it); a truthy one is lower-cased (a `TypeError` unless a string)
and compared with the lower-cased `answer_option`. -/
def singleIsCorrect (question userAnswer : JVal) : Except String Bool :=
  if truthy userAnswer then do
    let u ← jsToLower userAnswer
    let c ← jsToLower (getProp question "answer_option")
    .ok (u == c)
  else
    .ok false

/-- The explanation assembly of `gradeQuiz` (`utils.js` lines 333-361):
the explanation value shown for the question and the per-key explanation
map (later merged with `no_answer_option_text`). In the single-answer
object branch `answer_option` is lower-cased, a `TypeError` unless it is a
string. -/
def explanationFor (question : JVal) (isMulti : Bool) : Except String (JVal × List (String × JVal)) :=
  if truthy (getProp question "answer_option_text") then
    match getProp question "answer_option_text" with
    | .vstr s => .ok (.vstr s, [])
    | aot =>
      if isObjectType aot then
        if isMulti then
          let entries := objEntries aot
          let parts := entries.map (fun p => jsUpper p.1 ++ ": " ++ jsToString p.2)
          let allE := entries.foldl (fun acc p => assocSet acc (jsUpper p.1) p.2) []
          .ok (.vstr (String.intercalate "\n\n" parts), allE)
        else do
          let lowerCorrect ← jsToLower (getProp question "answer_option")
          let e := getProp aot lowerCorrect
          let allE := (objEntries aot).foldl (fun acc p => assocSet acc (jsUpper p.1) p.2) []
          .ok (if truthy e then e else .vstr "", allE)
      else .ok (.vstr "", [])
  else .ok (.vstr "", [])

/-- One per-question entry of `gradeQuiz`'s `results` (`utils.js` lines
396-407). `isCorrect` holds the truthiness of the JS value (the source
stores a falsy `''`/`undefined` for an unanswered single question and a
boolean otherwise; only truthiness is ever read). -/
structure QResult where
  question : JVal
  correctAnswer : JVal
  correctAnswerText : JVal
  userAnswer : JVal
  userAnswerText : JVal
  isCorrect : Bool
  explanation : JVal
  allExplanations : List (String × JVal)
  learningObjective : JVal
  isMultiAnswer : Bool

/-- The body of the `questions.forEach` loop of `gradeQuiz` (`utils.js`
lines 287-408) for one question and its submitted answer: grading,
explanation assembly and the display fields, in source evaluation order,
propagating any `TypeError`. -/
def gradeQuestion (question userAnswer : JVal) : Except String QResult := do
  let correctAnswers ← getCorrectAnswers question
  let isMulti := isMultiAnswerQuestion question
  let isCorrect ←
    if isMulti then multiIsCorrect correctAnswers userAnswer
    else singleIsCorrect question userAnswer
  let ea ← explanationFor question isMulti
  let naot := getProp question "no_answer_option_text"
  let allExplanations :=
    if truthy naot && isObjectType naot then
      (objEntries naot).foldl (fun acc p => assocSet acc (jsUpper p.1) p.2) ea.2
    else ea.2
  let disp ←
    if isMulti then do
      let cad := JVal.vstr (String.intercalate ", " correctAnswers)
      let texts ← mapJs (fun a => getOptionText question (.vstr a)) correctAnswers
      let cat := JVal.vstr (jsJoin "; " texts)
      match userAnswer with
      | .varr l =>
          if 0 < l.length then do
            let uts ← mapJs (fun x => getOptionText question x) l
            .ok (cad, cat, JVal.vstr (jsJoin ", " l), JVal.vstr (jsJoin "; " uts))
          else do
            let ut ← getOptionText question userAnswer
            .ok (cad, cat, userAnswer, ut)
      | _ =>
          if truthy userAnswer then do
            let ut ← getOptionText question userAnswer
            .ok (cad, cat, userAnswer, ut)
          else
            .ok (cad, cat, JVal.vstr "Nessuna risposta", JVal.vstr "Nessuna risposta")
    else do
      let ca := getProp question "answer_option"
      let cat ← getOptionText question ca
      if truthy userAnswer then do
        let ut ← getOptionText question userAnswer
        .ok (ca, cat, userAnswer, ut)
      else
        .ok (ca, cat, JVal.vstr "Nessuna risposta", JVal.vstr "Nessuna risposta")
  .ok { question := getProp question "question_text"
        correctAnswer := disp.1
        correctAnswerText := disp.2.1
        userAnswer := disp.2.2.1
        userAnswerText := disp.2.2.2
        isCorrect := isCorrect
        explanation := ea.1
        allExplanations := allExplanations
        learningObjective := getProp question "learning_objective"
        isMultiAnswer := isMulti }

/-- A JS number as produced by `gradeQuiz`'s percentage: `NaN`, `Infinity`
or a finite (rounded, hence integral) value. -/
inductive JNum where
  | nan
  | inf
  | val (n : Int)
deriving DecidableEq

/-- `Math.round((correctCount / questions.length) * 100)` (`utils.js` line
413), with JS semantics of division by zero: `0/0` is `NaN`, and
`Math.round` rounds half toward positive infinity. The division is
modelled exactly on rationals. -/
def percentageOf (correctCount total : Nat) : JNum :=
  if total = 0 then
    (if correctCount = 0 then .nan else .inf)
  else
    .val (Int.floor ((correctCount : ℚ) / (total : ℚ) * 100 + 1 / 2))

/-- One `learningObjectiveStats` bucket (`utils.js` lines 318-330). -/
structure LOStats where
  total : Nat
  correct : Nat
  incorrect : Nat

/-- Update of one learning-objective bucket: create it on first sight, then
increment `total` and `correct`/`incorrect` (`utils.js` lines 317-331). -/
def bumpStats (stats : List (String × LOStats)) (key : String) (isCorrect : Bool) :
    List (String × LOStats) :=
  match assocGet stats key with
  | some s =>
      stats.map (fun p =>
        if p.1 = key then
          (key, { total := s.total + 1,
                  correct := s.correct + (if isCorrect then 1 else 0),
                  incorrect := s.incorrect + (if isCorrect then 0 else 1) })
        else p)
  | none =>
      stats ++ [(key, { total := 1,
                        correct := if isCorrect then 1 else 0,
                        incorrect := if isCorrect then 0 else 1 })]

/-- The value returned by `gradeQuiz` (`utils.js` lines 410-417). -/
structure GradeResult where
  score : Nat
  total : Nat
  percentage : JNum
  passed : Bool
  results : List QResult
  learningObjectiveStats : List (String × LOStats)

/-- `gradeQuiz(questions, userAnswers)` from `utils.js` lines 282-418:
grade every question against `userAnswers[String(index)]`, count the
correct ones, accumulate per-learning-objective statistics, and report
score, total, percentage and the fixed `passed = score >= 26` verdict. -/
def gradeQuiz (questions : List JVal) (userAnswers : JVal) : Except String GradeResult := do
  let results ← mapJs
    (fun p => gradeQuestion p.2 (getProp userAnswers (toString p.1))) questions.enum
  let correctCount := (results.filter (fun r => r.isCorrect)).length
  let stats := results.foldl
    (fun st r =>
      if truthy r.learningObjective then bumpStats st (jsToString r.learningObjective) r.isCorrect
      else st) []
  .ok { score := correctCount
        total := questions.length
        percentage := percentageOf correctCount questions.length
        passed := decide (26 ≤ correctCount)
        results := results
        learningObjectiveStats := stats }

/-- One Fisher-Yates swap `[a[i], a[j]] = [a[j], a[i]]` (`utils.js` line
14); identity when an index is out of range (never the case in the
shuffle loop). -/
def listSwap (l : List α) (i j : Nat) : List α :=
  match l[i]?, l[j]? with
  | some a, some b => (l.set i b).set j a
  | _, _ => l

/-- The loop of `shuffleArray` (`utils.js` lines 12-15): for `i` from
`length - 1` down to `1`, swap position `i` with position
`j = Math.floor(Math.random() * (i + 1))`. The random draws are an
explicit parameter: `rand i % (i + 1)` ranges over exactly the values
`Math.floor(Math.random() * (i + 1))` can take. -/
def fyLoop (rand : Nat → Nat) : Nat → List α → List α
  | 0, l => l
  | i + 1, l => fyLoop rand i (listSwap l (i + 1) (rand (i + 1) % (i + 2)))

/-- `shuffleArray(array)` from `utils.js` lines 10-17, parameterized by the
outcome of the random draws. -/
def shuffleArray (rand : Nat → Nat) (array : List α) : List α :=
  fyLoop rand (array.length - 1) array

/-- `prepareQuestionForDisplay(question)` from `utils.js` lines 237-274:
shuffle array-form options, convert legacy object-form options to the
array form with upper-cased keys and shuffle them, keep the original
options and record `isMultiAnswer`. -/
def prepareQuestionForDisplay (rand : Nat → Nat) (question : JVal) : JVal :=
  if !truthy (getProp question "question_option") then question
  else
    match getProp question "question_option" with
    | .varr opts =>
        setProp (setProp (setProp question "question_option" (.varr (shuffleArray rand opts)))
          "original_options" (.varr opts))
          "isMultiAnswer" (.vbool (isMultiAnswerQuestion question))
    | .vobj fields =>
        setProp (setProp (setProp question "question_option"
            (.varr (shuffleArray rand (fields.map
              (fun p => JVal.vobj [("option", .vstr (jsUpper p.1)), ("option_text", p.2)])))))
          "original_options" (.vobj fields))
          "isMultiAnswer" (.vbool (isMultiAnswerQuestion question))
    | _ => setProp question "isMultiAnswer" (.vbool (isMultiAnswerQuestion question))

/-- The canonical option keys of a question, read the way the source reads
them: array-form options contribute their `option` field (the value the
grading and display code compares against), legacy object-form options
contribute their keys upper-cased (the canonicalization
`prepareQuestionForDisplay` applies). -/
def canonicalOptionKeys (question : JVal) : List JVal :=
  match getProp question "question_option" with
  | .varr opts => opts.map (fun o => getProp o "option")
  | .vobj fields => fields.map (fun p => JVal.vstr (jsUpper p.1))
  | _ => []

/-- The string option keys of a question (the keys a submitted string can
be compared against case-insensitively): `option` fields that are strings
in the array form, object keys in the legacy form. -/
def optionKeyStrings (question : JVal) : List String :=
  match getProp question "question_option" with
  | .varr opts =>
      opts.filterMap (fun o =>
        match getProp o "option" with
        | .vstr s => some s
        | _ => none)
  | .vobj fields => fields.map (·.1)
  | _ => []

/-- A snapshot record as stored by the session store: the write timestamp
checked by the expiry logic plus the remaining snapshot payload
(question order, index, answers, remaining seconds), which the expiry
logic never inspects. -/
structure SavedState where
  timestamp : Int
  payload : JVal

/-- `maxAge`: 24 hours in milliseconds (`utils.js` line 449). -/
def maxAgeMs : Int := 24 * 60 * 60 * 1000

/-- The localStorage key `quiz_<name>` (`utils.js` line 444). -/
def storageKey (quizName : String) : String := "quiz_" ++ quizName

/-- `loadQuizState(quizName)` from `utils.js` lines 442-461, with the store
and the current time explicit: return the stored state when it is less
than 24 hours old; delete it from the store and return nothing when it is
24 hours old or older; return nothing when there is no entry. The result
is the returned value paired with the store after the call. -/
def loadQuizState (store : List (String × SavedState)) (quizName : String) (now : Int) :
    Option SavedState × List (String × SavedState) :=
  let key := storageKey quizName
  match assocGet store key with
  | some st =>
      if now - st.timestamp < maxAgeMs then (some st, store)
      else (none, store.filter (fun p => decide (p.1 ≠ key)))
  | none => (none, store)

/-- `QuizApp.selectOption(optionValue)` (controller lines 574-589), acting
on the `userAnswers` map at the current question index: store the selected
option value. -/
def selectOption (answers : List (Nat × JVal)) (idx : Nat) (optionValue : String) :
    List (Nat × JVal) :=
  assocSet answers idx (.vstr optionValue)

/-- `QuizApp.selectMultiOption(optionValue, isChecked)` (controller lines
594-631), acting on the `userAnswers` map at the current question index:
normalize the entry to an array, then push the value when checked (unless
already present) or filter it out when unchecked. A fully deselected entry
stays as an empty array; it is never removed. -/
def selectMultiOption (answers : List (Nat × JVal)) (idx : Nat) (optionValue : String)
    (isChecked : Bool) : List (Nat × JVal) :=
  let cur := (assocGet answers idx).getD .vundefined
  let arr : List JVal :=
    match cur with
    | .varr l => l
    | _ => []
  let arr' :=
    if isChecked then
      if arr.any (fun x => strictEq x (.vstr optionValue)) then arr
      else arr ++ [.vstr optionValue]
    else
      arr.filter (fun x => !strictEq x (.vstr optionValue))
  assocSet answers idx (.varr arr')

/-- The `userAnswers` states of an attempt over `n` questions reachable
from the fresh empty map by the two answer-selection operations, each
invoked at a current question index within range (the controller's
navigation keeps `currentQuestionIndex` in `[0, n)`). -/
inductive ReachableAnswers (n : Nat) : List (Nat × JVal) → Prop where
  | init : ReachableAnswers n []
  | select {ua : List (Nat × JVal)} {idx : Nat} {v : String} :
      ReachableAnswers n ua → idx < n → ReachableAnswers n (selectOption ua idx v)
  | selectMulti {ua : List (Nat × JVal)} {idx : Nat} {v : String} {c : Bool} :
      ReachableAnswers n ua → idx < n → ReachableAnswers n (selectMultiOption ua idx v c)

/-- The spec's notion of an option-like entry (C7): an object carrying an
option key and an option text. Stated from the spec's words, for
comparison with what `validateQuestion` actually checks. -/
def optionLikeClaimed (v : JVal) : Bool :=
  isObjectType v && !isUndef (getProp v "option") && !isUndef (getProp v "option_text")

/-- The success condition of `validateQuestion`'s object-ness check. -/
def vqObjCheck (q : JVal) : Bool := truthy q && isObjectType q

/-- The success condition of `validateQuestion`'s `question_text` check. -/
def vqTextCheck (q : JVal) : Bool :=
  truthy (getProp q "question_text") && isStringJ (getProp q "question_text")

/-- The success condition of `validateQuestion`'s `question_option` check
on the field's value: an array of at least 2 entries, or an object with at
least 2 keys. -/
def vqOptionCheckV (qo : JVal) : Bool :=
  match qo with
  | .varr l => decide (2 ≤ l.length)
  | .vobj fields => decide (2 ≤ fields.length)
  | _ => false

/-- The success condition of `validateQuestion`'s `question_option` check. -/
def vqOptionCheck (q : JVal) : Bool :=
  vqOptionCheckV (getProp q "question_option")

/-- The success condition of `validateQuestion`'s `answer_option` check. -/
def vqAnswerCheck (q : JVal) : Bool :=
  truthy (getProp q "answer_option") && isStringJ (getProp q "answer_option")

/-- A question the validator accepts although its correct key `Z` is not
among its option keys `A`, `B`. -/
def exampleC1 : JVal := .vobj [("question_text", .vstr "t"),
  ("question_option", .varr [.vobj [("option", .vstr "A"), ("option_text", .vstr "x")],
                             .vobj [("option", .vstr "B"), ("option_text", .vstr "y")]]),
  ("answer_option", .vstr "Z")]

/-- A multi-answer question with correct keys `{A, C}` and array options
`A`-`D`. -/
def exampleC3 : JVal := .vobj [("question_text", .vstr "t"),
  ("question_option", .varr [.vobj [("option", .vstr "A"), ("option_text", .vstr "tA")],
                             .vobj [("option", .vstr "B"), ("option_text", .vstr "tB")],
                             .vobj [("option", .vstr "C"), ("option_text", .vstr "tC")],
                             .vobj [("option", .vstr "D"), ("option_text", .vstr "tD")]]),
  ("answer_option", .vstr "A"),
  ("answer_option_text", .vobj [("a", .vstr "ea"), ("c", .vstr "ec")])]

/-- A well-formed single-answer question with array options. -/
def exampleC4 : JVal := .vobj [("question_text", .vstr "t"),
  ("question_option", .varr [.vobj [("option", .vstr "A"), ("option_text", .vstr "x")],
                             .vobj [("option", .vstr "B"), ("option_text", .vstr "y")]]),
  ("answer_option", .vstr "A")]

/-- A question whose `answer_option_text` has the two distinct keys `a` and
`A`, which collapse to the single key `A` after upper-casing. -/
def exampleC5 : JVal := .vobj [("answer_option_text", .vobj [("a", .vstr "x"), ("A", .vstr "y")])]

/-- A question whose `question_option` is an array of two numbers: none of
its entries is option-like, yet the validator accepts it. -/
def exampleC7 : JVal := .vobj [("question_text", .vstr "t"),
  ("question_option", .varr [.vnum 1, .vnum 2]),
  ("answer_option", .vstr "a")]

theorem assocGet_map_update_self [DecidableEq κ] {l : List (κ × ω)} {k : κ} {x : ω}
    (h : l.any (fun p => decide (p.1 = k)) = true) :
    assocGet (l.map (fun p => if p.1 = k then (k, x) else p)) k = some x := by
  induction l with
  | nil => simp at h
  | cons p ps ih =>
    by_cases hp : p.1 = k
    · simp [assocGet, hp]
    · simp only [List.any_cons, Bool.or_eq_true, decide_eq_true_eq] at h
      rcases h with h | h
      · exact absurd h hp
      · simp only [List.map_cons, if_neg hp]
        simpa [assocGet, hp] using ih h

theorem assocGet_map_update_ne [DecidableEq κ] (l : List (κ × ω)) (k k' : κ) (x : ω)
    (h : k' ≠ k) :
    assocGet (l.map (fun p => if p.1 = k then (k, x) else p)) k' = assocGet l k' := by
  induction l with
  | nil => rfl
  | cons p ps ih =>
    by_cases hp : p.1 = k
    · have hkk : ¬ k = k' := fun hh => h hh.symm
      simp only [List.map_cons, if_pos hp, assocGet]
      rw [if_neg hkk, if_neg (fun hh => hkk (hp.symm.trans hh)), ih]
    · simp only [List.map_cons, if_neg hp, assocGet]
      by_cases hp' : p.1 = k' <;> simp [hp', ih]

theorem assocGet_append_single_absent [DecidableEq κ] {l : List (κ × ω)} {k : κ} {x : ω}
    (h : l.any (fun p => decide (p.1 = k)) = false) :
    assocGet (l ++ [(k, x)]) k = some x := by
  induction l with
  | nil => simp [assocGet]
  | cons p ps ih =>
    simp only [List.any_cons, Bool.or_eq_false_iff, decide_eq_false_iff_not] at h
    simpa [assocGet, h.1] using ih (by simpa using h.2)

theorem assocGet_append_single_ne [DecidableEq κ] (l : List (κ × ω)) (k k' : κ) (x : ω)
    (h : k' ≠ k) : assocGet (l ++ [(k, x)]) k' = assocGet l k' := by
  induction l with
  | nil =>
    simp only [List.nil_append, assocGet]
    rw [if_neg (fun hh => h hh.symm)]
  | cons p ps ih =>
    by_cases hp' : p.1 = k' <;> simp [assocGet, hp', ih]

theorem assocGet_assocSet_self [DecidableEq κ] (l : List (κ × ω)) (k : κ) (x : ω) :
    assocGet (assocSet l k x) k = some x := by
  unfold assocSet
  by_cases hany : l.any (fun p => decide (p.1 = k)) = true
  · simpa [hany] using assocGet_map_update_self hany
  · have h' : l.any (fun p => decide (p.1 = k)) = false := Bool.eq_false_iff.mpr hany
    simpa [h'] using assocGet_append_single_absent h'

theorem assocGet_assocSet_ne [DecidableEq κ] (l : List (κ × ω)) (k k' : κ) (x : ω)
    (h : k' ≠ k) : assocGet (assocSet l k x) k' = assocGet l k' := by
  unfold assocSet
  by_cases hany : l.any (fun p => decide (p.1 = k)) = true
  · simpa [hany] using assocGet_map_update_ne l k k' x h
  · have h' : l.any (fun p => decide (p.1 = k)) = false := Bool.eq_false_iff.mpr hany
    simpa [h'] using assocGet_append_single_ne l k k' x h

theorem mem_assocSet [DecidableEq κ] {l : List (κ × ω)} {k : κ} {x : ω} {p : κ × ω}
    (h : p ∈ assocSet l k x) : p ∈ l ∨ p = (k, x) := by
  unfold assocSet at h
  by_cases hany : l.any (fun q => decide (q.1 = k)) = true
  · rw [if_pos hany] at h
    rcases List.mem_map.mp h with ⟨q, hq, hfq⟩
    by_cases hqk : q.1 = k
    · right
      rw [if_pos hqk] at hfq
      exact hfq.symm
    · left
      rw [if_neg hqk] at hfq
      exact hfq ▸ hq
  · rw [if_neg hany] at h
    rcases List.mem_append.mp h with h | h
    · exact Or.inl h
    · exact Or.inr (List.mem_singleton.mp h)

theorem getProp_setProp_self (fields : List (String × JVal)) (k : String) (x : JVal) :
    getProp (setProp (.vobj fields) k x) k = x := by
  simp [getProp, setProp, assocGet_assocSet_self]

theorem getProp_setProp_ne (fields : List (String × JVal)) (k k' : String) (x : JVal)
    (h : k' ≠ k) : getProp (setProp (.vobj fields) k x) k' = getProp (.vobj fields) k' := by
  simp [getProp, setProp, assocGet_assocSet_ne fields k k' x h]

theorem truthy_getProp_vobj {q : JVal} {key : String}
    (h : truthy (getProp q key) = true) : ∃ fields, q = .vobj fields := by
  cases q <;> simp [getProp, truthy] at h ⊢

theorem mapJs_vstr_toUpper (sel : List String) :
    mapJs jsToUpper (sel.map JVal.vstr) = .ok (sel.map jsUpper) := by
  induction sel with
  | nil => rfl
  | cons s ss ih => simp [mapJs, jsToUpper, ih, Bind.bind, Except.bind]

theorem getOptionText_vstr_ok (q : JVal) (s : String) :
    ∃ v, getOptionText q (.vstr s) = .ok v := by
  unfold getOptionText
  cases hqo : getProp q "question_option" <;> simp only [hqo]
  case vundefined => exact ⟨_, rfl⟩
  case vnull => exact ⟨_, rfl⟩
  case vbool b => cases b <;> exact ⟨_, rfl⟩
  case vnum n =>
    split
    · exact ⟨_, rfl⟩
    · exact ⟨_, rfl⟩
  case vstr t =>
    split
    · exact ⟨_, rfl⟩
    · exact ⟨_, rfl⟩
  case varr l =>
    cases hf : l.find? (fun opt =>
        truthy opt && isObjectType opt && strictEq (getProp opt "option") (.vstr s)) with
    | none => exact ⟨.vstr "", by simp [hf]⟩
    | some opt =>
        exact ⟨if truthy (getProp opt "option_text") then getProp opt "option_text" else .vstr "",
          by simp [hf, truthy]⟩
  case vobj fields => exact ⟨_, rfl⟩

theorem isMulti_getCorrectAnswers {q : JVal} (h : isMultiAnswerQuestion q = true) :
    getCorrectAnswers q = .ok ((objKeys (getProp q "answer_option_text")).map jsUpper) ∧
    1 < (objKeys (getProp q "answer_option_text")).length := by
  cases ht : truthy (getProp q "answer_option_text") with
  | false =>
    exfalso
    unfold isMultiAnswerQuestion at h
    simp [ht] at h
  | true =>
    unfold isMultiAnswerQuestion at h
    cases hobj : isObjectType (getProp q "answer_option_text") with
    | false =>
      exfalso
      simp [ht, hobj] at h
    | true =>
      simp only [ht, hobj, Bool.not_true, Bool.false_eq_true, if_false, if_true,
        decide_eq_true_eq] at h
      refine ⟨?_, h⟩
      simp [getCorrectAnswers, ht, hobj]

theorem coe_set_add {l : List α} {i : Nat} (b : α) (h : i < l.length) :
    ((l.set i b : List α) : Multiset α) + {l[i]} = (l : Multiset α) + {b} := by
  conv_rhs => rw [← List.take_append_drop i l, List.drop_eq_getElem_cons h]
  rw [List.set_eq_take_cons_drop b h]
  simp only [← Multiset.coe_add, ← Multiset.cons_coe]
  simp only [← Multiset.singleton_add]
  abel

theorem listSwap_coe (l : List α) (i j : Nat) :
    ((listSwap l i j : List α) : Multiset α) = (l : Multiset α) := by
  unfold listSwap
  cases hi : l[i]? with
  | none => rfl
  | some a =>
    cases hj : l[j]? with
    | none => rfl
    | some b =>
      have hil : i < l.length := List.getElem?_eq_some_iff.mp hi |>.1
      have hjl : j < l.length := List.getElem?_eq_some_iff.mp hj |>.1
      have hia : l[i] = a := by
        have := List.getElem?_eq_getElem hil
        rw [hi] at this
        exact (Option.some.injEq _ _ ▸ this).symm
      have hjb : l[j] = b := by
        have := List.getElem?_eq_getElem hjl
        rw [hj] at this
        exact (Option.some.injEq _ _ ▸ this).symm
      have hjl' : j < (l.set i b).length := by simpa using hjl
      have h1 : ((l.set i b).set j a : Multiset α) + {(l.set i b)[j]} =
          ((l.set i b : List α) : Multiset α) + {a} := coe_set_add a hjl'
      have h2 : ((l.set i b : List α) : Multiset α) + {l[i]} = (l : Multiset α) + {b} :=
        coe_set_add b hil
      by_cases hij : i = j
      · subst hij
        have hab : a = b := by rw [← hia, ← hjb]
        subst hab
        have : (l.set i a)[i] = a := by
          simp [List.getElem_set_self]
        rw [this] at h1
        rw [hia] at h2
        have h3 := h1.trans h2
        exact add_right_cancel h3
      · have hset : (l.set i b)[j] = l[j] := by
          rw [List.getElem_set_ne]
          omega
        rw [hset, hjb] at h1
        rw [hia] at h2
        exact add_right_cancel (h1.trans h2)

theorem fyLoop_coe (rand : Nat → Nat) (i : Nat) (l : List α) :
    ((fyLoop rand i l : List α) : Multiset α) = (l : Multiset α) := by
  induction i generalizing l with
  | zero => rfl
  | succ n ih =>
    unfold fyLoop
    rw [ih, listSwap_coe]

theorem shuffleArray_coe (rand : Nat → Nat) (l : List α) :
    ((shuffleArray rand l : List α) : Multiset α) = (l : Multiset α) :=
  fyLoop_coe rand (l.length - 1) l

theorem optionFieldErrors_empty_iff (qo : JVal) (i : Nat) :
    optionFieldErrors qo i = [] ↔ vqOptionCheckV qo = true := by
  cases qo
  case vundefined => simp [optionFieldErrors, vqOptionCheckV, truthy]
  case vnull => simp [optionFieldErrors, vqOptionCheckV, truthy]
  case vbool b => cases b <;> simp [optionFieldErrors, vqOptionCheckV, truthy]
  case vnum n =>
    by_cases hn : n = 0 <;> simp [optionFieldErrors, vqOptionCheckV, truthy, hn]
  case vstr s =>
    by_cases hs : s = "" <;> simp [optionFieldErrors, vqOptionCheckV, truthy, hs]
  case varr l =>
    by_cases hl : l.length < 2 <;>
      simp [optionFieldErrors, vqOptionCheckV, truthy, hl] <;> omega
  case vobj fields =>
    by_cases hf : fields.length < 2 <;>
      simp [optionFieldErrors, vqOptionCheckV, truthy, hf] <;> omega

theorem optionFieldErrors_length (qo : JVal) (i : Nat) :
    (optionFieldErrors qo i).length = if vqOptionCheckV qo then 0 else 1 := by
  cases qo
  case vundefined => simp [optionFieldErrors, vqOptionCheckV, truthy]
  case vnull => simp [optionFieldErrors, vqOptionCheckV, truthy]
  case vbool b => cases b <;> simp [optionFieldErrors, vqOptionCheckV, truthy]
  case vnum n =>
    by_cases hn : n = 0 <;> simp [optionFieldErrors, vqOptionCheckV, truthy, hn]
  case vstr s =>
    by_cases hs : s = "" <;> simp [optionFieldErrors, vqOptionCheckV, truthy, hs]
  case varr l =>
    by_cases hl : l.length < 2 <;> simp [optionFieldErrors, vqOptionCheckV, truthy, hl]
    · rw [if_neg (by omega)]
    · rw [if_pos (by omega)]
  case vobj fields =>
    by_cases hf : fields.length < 2 <;> simp [optionFieldErrors, vqOptionCheckV, truthy, hf]
    · rw [if_neg (by omega)]
    · rw [if_pos (by omega)]

theorem optionFieldErrors_mem (qo : JVal) (i : Nat) :
    ∀ e ∈ optionFieldErrors qo i, ∃ t, e = domandaMsg i t := by
  intro e he
  cases qo
  case vundefined =>
    simp [optionFieldErrors, truthy] at he
    exact ⟨_, he⟩
  case vnull =>
    simp [optionFieldErrors, truthy] at he
    exact ⟨_, he⟩
  case vbool b =>
    cases b <;> simp [optionFieldErrors, truthy] at he <;> exact ⟨_, he⟩
  case vnum n =>
    by_cases hn : n = 0 <;> simp [optionFieldErrors, truthy, hn] at he <;> exact ⟨_, he⟩
  case vstr s =>
    by_cases hs : s = "" <;> simp [optionFieldErrors, truthy, hs] at he <;> exact ⟨_, he⟩
  case varr l =>
    by_cases hl : l.length < 2 <;> simp [optionFieldErrors, truthy, hl] at he
    exact ⟨_, he⟩
  case vobj fields =>
    by_cases hf : fields.length < 2 <;> simp [optionFieldErrors, truthy, hf] at he
    exact ⟨_, he⟩

theorem validateQuestion_obj_case (q : JVal) (i : Nat) (h : vqObjCheck q = true) :
    validateQuestion q i =
      (((if vqTextCheck q then [] else [domandaMsg i "Manca question_text o non è una stringa"]) ++
        optionFieldErrors (getProp q "question_option") i ++
        (if vqAnswerCheck q then []
         else [domandaMsg i "Manca answer_option o non è una stringa"])).isEmpty,
       (if vqTextCheck q then [] else [domandaMsg i "Manca question_text o non è una stringa"]) ++
        optionFieldErrors (getProp q "question_option") i ++
        (if vqAnswerCheck q then []
         else [domandaMsg i "Manca answer_option o non è una stringa"])) := by
  unfold validateQuestion
  rw [vqObjCheck] at h
  simp only [h, Bool.not_true, Bool.false_eq_true, if_false]
  cases ht : vqTextCheck q <;> cases ha : vqAnswerCheck q <;>
    rw [vqTextCheck] at ht <;> rw [vqAnswerCheck] at ha <;>
    simp [ht, ha]

theorem validateQuestion_not_obj (q : JVal) (i : Nat) (h : vqObjCheck q = false) :
    validateQuestion q i = (false, [domandaMsg i "Non è un oggetto valido"]) := by
  unfold validateQuestion
  rw [vqObjCheck] at h
  simp [h]

theorem validateQuestion_errors_length (q : JVal) (i : Nat) (hobj : vqObjCheck q = true) :
    (validateQuestion q i).2.length =
      (if vqTextCheck q then 0 else 1) + (if vqOptionCheck q then 0 else 1) +
      (if vqAnswerCheck q then 0 else 1) := by
  rw [validateQuestion_obj_case q i hobj]
  have h2 := optionFieldErrors_length (getProp q "question_option") i
  cases ht : vqTextCheck q <;> cases ha : vqAnswerCheck q <;>
    simp [h2, vqOptionCheck] <;>
    (try (split <;> omega))

theorem validateQuestion_isValid_eq (q : JVal) (i : Nat) :
    (validateQuestion q i).1 =
      (vqObjCheck q && vqTextCheck q && vqOptionCheck q && vqAnswerCheck q) := by
  by_cases hobj : vqObjCheck q = true
  · have hlen := validateQuestion_errors_length q i hobj
    have hval : (validateQuestion q i).1 = (validateQuestion q i).2.isEmpty := by
      rw [validateQuestion_obj_case q i hobj]
    rw [hval, hobj, Bool.true_and]
    cases ht : vqTextCheck q <;> cases ho : vqOptionCheck q <;> cases ha : vqAnswerCheck q <;>
      rw [ht, ho, ha] at hlen <;>
      simp at hlen <;>
      simp only [Bool.and_self, Bool.false_and, Bool.true_and, Bool.and_false, Bool.and_true] <;>
      first
      | (simp [hlen]
         done)
      | (rw [Bool.eq_false_iff]
         intro hEmp
         rw [List.isEmpty_iff_length_eq_zero] at hEmp
         omega)
  · have hf : vqObjCheck q = false := Bool.eq_false_iff.mpr hobj
    rw [validateQuestion_not_obj q i hf, hf]
    simp

theorem validateQuestion_errors_mem (q : JVal) (i : Nat) :
    ∀ e ∈ (validateQuestion q i).2, ∃ t, e = domandaMsg i t := by
  intro e he
  by_cases hobj : vqObjCheck q = true
  · rw [validateQuestion_obj_case q i hobj] at he
    simp only [List.mem_append] at he
    rcases he with (he | he) | he
    · rcases Decidable.em (vqTextCheck q = true) with ht | ht
      · rw [if_pos ht] at he
        simp at he
      · rw [if_neg ht] at he
        exact ⟨_, List.mem_singleton.mp he⟩
    · exact optionFieldErrors_mem _ i e he
    · rcases Decidable.em (vqAnswerCheck q = true) with ha | ha
      · rw [if_pos ha] at he
        simp at he
      · rw [if_neg ha] at he
        exact ⟨_, List.mem_singleton.mp he⟩
  · have hf : vqObjCheck q = false := Bool.eq_false_iff.mpr hobj
    rw [validateQuestion_not_obj q i hf] at he
    exact ⟨_, List.mem_singleton.mp he⟩

/-- C7 (amended): `validateQuestion` accepts a raw value iff it is a truthy
object whose `question_text` is a truthy string, whose `question_option` is
an array with at least 2 entries — of any shape; option-likeness of the
entries is not checked — or an object with at least 2 keys, and whose
`answer_option` is a truthy string. Every diagnostic mentions the 1-based
question number, and for an object input each failing check contributes
exactly one diagnostic. -/
theorem validateQuestion_spec (q : JVal) (i : Nat) :
    ((validateQuestion q i).1 =
      (vqObjCheck q && vqTextCheck q && vqOptionCheck q && vqAnswerCheck q)) ∧
    (∀ e ∈ (validateQuestion q i).2, ∃ t, e = domandaMsg i t) ∧
    (vqObjCheck q = true →
      (validateQuestion q i).2.length =
        (if vqTextCheck q then 0 else 1) + (if vqOptionCheck q then 0 else 1) +
        (if vqAnswerCheck q then 0 else 1)) :=
  ⟨validateQuestion_isValid_eq q i, validateQuestion_errors_mem q i,
   validateQuestion_errors_length q i⟩

/-- C7 witness: on the empty object all three field checks fail — the
validator rejects it with exactly three diagnostics, each carrying the
1-based question number. -/
theorem validateQuestion_spec_witness :
    (validateQuestion (.vobj []) 4).1 = false ∧
    (validateQuestion (.vobj []) 4).2.length = 3 ∧
    (∃ t, domandaMsg 4 "Manca question_option" = domandaMsg 4 t) := by
  have h := validateQuestion_spec (.vobj []) 4
  refine ⟨?_, ?_, ?_⟩
  · rw [h.1]
    decide
  · rw [h.2.2 (by decide)]
    decide
  · exact h.2.1 (domandaMsg 4 "Manca question_option") (by decide)

/-- C7 counterexample: the claim requires the entries of array-form options
to be option-like (objects with a key and a text), but the code only checks
the array's length — a question whose `question_option` is `[1, 2]` is
accepted with no diagnostics although no entry is option-like. -/
theorem validateQuestion_non_option_like_accepted :
    validateQuestion exampleC7 0 = (true, []) ∧
    getProp exampleC7 "question_option" = .varr [.vnum 1, .vnum 2] ∧
    [JVal.vnum 1, JVal.vnum 2].all optionLikeClaimed = false :=
  ⟨rfl, rfl, rfl⟩

/-- C1 counterexample: the validator accepts a question whose only correct
key `Z` does not occur, even case-insensitively, among its option keys
`A`, `B`: acceptance does not imply the containment
`correctKeys ⊆ {option.key}`. -/
theorem validateQuestion_accepts_key_outside_options :
    (validateQuestion exampleC1 0).1 = true ∧
    getCorrectAnswers exampleC1 = .ok ["Z"] ∧
    optionKeyStrings exampleC1 = ["A", "B"] ∧
    ¬ ∃ s ∈ optionKeyStrings exampleC1, jsUpper s = jsUpper "Z" := by
  refine ⟨rfl, rfl, rfl, ?_⟩
  decide

/-- C1 (amended): acceptance by the validator guarantees only the shape
checks — a truthy string `question_text`, at least two options in either
encoding, and a truthy string `answer_option`. It does not guarantee that
the keys returned by `getCorrectAnswers` occur among the option keys. -/
theorem validateQuestion_accepted_shape (q : JVal) (i : Nat)
    (h : (validateQuestion q i).1 = true) :
    (∃ s, getProp q "question_text" = .vstr s ∧ s ≠ "") ∧
    ((∃ opts, getProp q "question_option" = .varr opts ∧ 2 ≤ opts.length) ∨
     (∃ fields, getProp q "question_option" = .vobj fields ∧ 2 ≤ fields.length)) ∧
    (∃ s, getProp q "answer_option" = .vstr s ∧ s ≠ "") := by
  rw [validateQuestion_isValid_eq q i] at h
  simp only [Bool.and_eq_true] at h
  obtain ⟨⟨⟨_, htext⟩, hopt⟩, hans⟩ := h
  refine ⟨?_, ?_, ?_⟩
  · rw [vqTextCheck, Bool.and_eq_true] at htext
    obtain ⟨ht1, ht2⟩ := htext
    cases hqt : getProp q "question_text" with
    | vstr s =>
        rw [hqt] at ht1
        exact ⟨s, rfl, of_decide_eq_true ht1⟩
    | vundefined => rw [hqt] at ht2; simp [isStringJ] at ht2
    | vnull => rw [hqt] at ht2; simp [isStringJ] at ht2
    | vbool b => rw [hqt] at ht2; simp [isStringJ] at ht2
    | vnum n => rw [hqt] at ht2; simp [isStringJ] at ht2
    | varr l => rw [hqt] at ht2; simp [isStringJ] at ht2
    | vobj fields => rw [hqt] at ht2; simp [isStringJ] at ht2
  · rw [vqOptionCheck] at hopt
    cases hqo : getProp q "question_option" with
    | varr l =>
        rw [hqo] at hopt
        exact Or.inl ⟨l, rfl, of_decide_eq_true hopt⟩
    | vobj fields =>
        rw [hqo] at hopt
        exact Or.inr ⟨fields, rfl, of_decide_eq_true hopt⟩
    | vundefined => rw [hqo] at hopt; simp [vqOptionCheckV] at hopt
    | vnull => rw [hqo] at hopt; simp [vqOptionCheckV] at hopt
    | vbool b => rw [hqo] at hopt; simp [vqOptionCheckV] at hopt
    | vnum n => rw [hqo] at hopt; simp [vqOptionCheckV] at hopt
    | vstr s => rw [hqo] at hopt; simp [vqOptionCheckV] at hopt
  · rw [vqAnswerCheck, Bool.and_eq_true] at hans
    obtain ⟨ha1, ha2⟩ := hans
    cases hao : getProp q "answer_option" with
    | vstr s =>
        rw [hao] at ha1
        exact ⟨s, rfl, of_decide_eq_true ha1⟩
    | vundefined => rw [hao] at ha2; simp [isStringJ] at ha2
    | vnull => rw [hao] at ha2; simp [isStringJ] at ha2
    | vbool b => rw [hao] at ha2; simp [isStringJ] at ha2
    | vnum n => rw [hao] at ha2; simp [isStringJ] at ha2
    | varr l => rw [hao] at ha2; simp [isStringJ] at ha2
    | vobj fields => rw [hao] at ha2; simp [isStringJ] at ha2

/-- C1 witness: the accepted question `exampleC1` indeed has the
guaranteed shape. -/
theorem validateQuestion_accepted_shape_witness :
    (∃ s, getProp exampleC1 "question_text" = JVal.vstr s ∧ s ≠ "") ∧
    ((∃ opts, getProp exampleC1 "question_option" = .varr opts ∧ 2 ≤ opts.length) ∨
     (∃ fields, getProp exampleC1 "question_option" = .vobj fields ∧ 2 ≤ fields.length)) ∧
    (∃ s, getProp exampleC1 "answer_option" = JVal.vstr s ∧ s ≠ "") :=
  validateQuestion_accepted_shape exampleC1 0 rfl

/-- C10: grading the empty question sequence with any answers mapping
returns score 0, total 0, passed false and empty per-question results,
without raising; its percentage field is the unguarded `0 / 0`, which is
not a number (`NaN`). -/
theorem gradeQuiz_empty_percentage_nan (userAnswers : JVal) :
    gradeQuiz [] userAnswers =
      .ok { score := 0, total := 0, percentage := JNum.nan, passed := false,
            results := [], learningObjectiveStats := [] } := rfl

/-- C2: whenever `gradeQuiz` returns a result, `passed` holds iff the score
— the count of per-question results marked correct — is at least the fixed
constant 26; the threshold does not depend on `total`, which is the
question count. -/
theorem gradeQuiz_passed_iff_26 (questions : List JVal) (userAnswers : JVal)
    (r : GradeResult) (h : gradeQuiz questions userAnswers = .ok r) :
    (r.passed = true ↔ 26 ≤ r.score) ∧
    r.score = (r.results.filter (fun x => x.isCorrect)).length ∧
    r.total = questions.length := by
  unfold gradeQuiz at h
  cases hm : mapJs (fun p => gradeQuestion p.2 (getProp userAnswers (toString p.1)))
      questions.enum with
  | error e =>
      rw [hm] at h
      simp [Bind.bind, Except.bind] at h
  | ok results =>
      rw [hm] at h
      simp only [Bind.bind, Except.bind, Except.ok.injEq] at h
      subst h
      simp

/-- C2 witness: a concrete run of `gradeQuiz` on which the theorem's
hypothesis holds. -/
theorem gradeQuiz_passed_iff_26_witness :
    ∃ r, gradeQuiz [] (.vobj []) = .ok r ∧ (r.passed = true ↔ 26 ≤ r.score) ∧
      r.total = 0 :=
  ⟨_, rfl, (gradeQuiz_passed_iff_26 [] (.vobj []) _ rfl).1,
    (gradeQuiz_passed_iff_26 [] (.vobj []) _ rfl).2.2⟩

/-- C5 counterexample: a question whose `answer_option_text` has the two
distinct keys `a` and `A` is classified multi-answer (two entries), yet the
set of keys returned by `getCorrectAnswers` is the singleton `{A}`:
the classification does not coincide with `|correctKeys| > 1` read as a
set cardinality. -/
theorem isMulti_key_set_mismatch :
    isMultiAnswerQuestion exampleC5 = true ∧
    getCorrectAnswers exampleC5 = .ok ["A", "A"] ∧
    (["A", "A"] : List String).toFinset.card = 1 := by
  refine ⟨rfl, rfl, ?_⟩
  decide

/-- C5 (amended): the multi-answer classification coincides with "the list
returned by `getCorrectAnswers` has more than one entry" — entries counted
with multiplicity, not as a case-normalized set. -/
theorem isMulti_iff_correct_list_length (q : JVal) (cs : List String)
    (h : getCorrectAnswers q = .ok cs) :
    (isMultiAnswerQuestion q = true ↔ 1 < cs.length) := by
  cases hm : isMultiAnswerQuestion q with
  | true =>
    obtain ⟨hok, hlen⟩ := isMulti_getCorrectAnswers hm
    rw [hok] at h
    have hcs : cs = (objKeys (getProp q "answer_option_text")).map jsUpper :=
      (Except.ok.inj h).symm
    subst hcs
    simpa using hlen
  | false =>
    simp only [Bool.false_eq_true, false_iff]
    intro hlong
    unfold getCorrectAnswers at h
    unfold isMultiAnswerQuestion at hm
    by_cases hcond : (truthy (getProp q "answer_option_text") &&
        isObjectType (getProp q "answer_option_text")) = true
    · rw [if_pos hcond] at h
      rw [Bool.and_eq_true] at hcond
      obtain ⟨hc1, hc2⟩ := hcond
      simp only [hc1, hc2, Bool.not_true, Bool.false_eq_true, if_false, if_true] at hm
      have hcs : cs = (objKeys (getProp q "answer_option_text")).map jsUpper :=
        (Except.ok.inj h).symm
      rw [hcs, List.length_map] at hlong
      simp at hm
      omega
    · rw [if_neg (by simpa using hcond)] at h
      by_cases htr : truthy (getProp q "answer_option") = true
      · rw [if_pos htr] at h
        cases hao : getProp q "answer_option" with
        | vstr t =>
            rw [hao] at h
            simp only [jsToUpper, Bind.bind, Except.bind, Except.ok.injEq] at h
            rw [← h] at hlong
            simp at hlong
        | vundefined => rw [hao] at h; simp [jsToUpper, Bind.bind, Except.bind] at h
        | vnull => rw [hao] at h; simp [jsToUpper, Bind.bind, Except.bind] at h
        | vbool b => rw [hao] at h; simp [jsToUpper, Bind.bind, Except.bind] at h
        | vnum n => rw [hao] at h; simp [jsToUpper, Bind.bind, Except.bind] at h
        | varr l => rw [hao] at h; simp [jsToUpper, Bind.bind, Except.bind] at h
        | vobj fields => rw [hao] at h; simp [jsToUpper, Bind.bind, Except.bind] at h
      · rw [if_neg htr] at h
        have hcs : cs = [] := (Except.ok.inj h).symm
        rw [hcs] at hlong
        simp at hlong

/-- C5 witness: a genuine multi-answer question (correct keys `A`, `C`)
classified through the amended equivalence. -/
theorem isMulti_iff_correct_list_length_witness :
    isMultiAnswerQuestion exampleC3 = true :=
  (isMulti_iff_correct_list_length exampleC3 ["A", "C"] rfl).mpr (by decide)

/-- C6 counterexample: a snapshot aged exactly 24 hours does not satisfy
the claim's expiry condition `now - timestamp > 24h`, yet `loadQuizState`
treats it as absent and deletes it: the claimed boundary is off by one
instant. -/
theorem loadQuizState_boundary_mismatch :
    loadQuizState [("quiz_a", ⟨0, .vnull⟩)] "a" 86400000 = (none, []) ∧
    ¬ ((86400000 : Int) - (0 : Int) > maxAgeMs) := by
  refine ⟨rfl, ?_⟩
  decide

/-- C6 (amended): `loadQuizState` returns absent when no entry exists (the
store unchanged) or when `now - timestamp ≥ 24h` (the entry deleted from
the store as a side effect); otherwise it returns the stored snapshot
intact with the store unchanged. -/
theorem loadQuizState_spec (store : List (String × SavedState)) (quizName : String)
    (now : Int) :
    (assocGet store (storageKey quizName) = none →
      loadQuizState store quizName now = (none, store)) ∧
    (∀ st, assocGet store (storageKey quizName) = some st →
      now - st.timestamp < maxAgeMs →
      loadQuizState store quizName now = (some st, store)) ∧
    (∀ st, assocGet store (storageKey quizName) = some st →
      maxAgeMs ≤ now - st.timestamp →
      loadQuizState store quizName now =
        (none, store.filter (fun p => decide (p.1 ≠ storageKey quizName)))) := by
  refine ⟨?_, ?_, ?_⟩
  · intro h
    simp only [loadQuizState]
    rw [h]
  · intro st h hlt
    simp only [loadQuizState]
    rw [h]
    dsimp only
    rw [if_pos hlt]
  · intro st h hge
    simp only [loadQuizState]
    rw [h]
    dsimp only
    rw [if_neg (by omega)]

/-- C6 witness: a snapshot written 23h59m ago is returned intact, one
written 24h1s ago is absent and deleted, and a missing key is absent with
the store untouched. -/
theorem loadQuizState_spec_witness :
    loadQuizState [("quiz_a", ⟨0, .vnull⟩)] "a" 86340000 =
      (some ⟨0, .vnull⟩, [("quiz_a", ⟨0, .vnull⟩)]) ∧
    loadQuizState [("quiz_b", ⟨0, .vnull⟩)] "b" 86401000 = (none, []) ∧
    loadQuizState [] "c" 0 = (none, []) := by
  refine ⟨?_, ?_, ?_⟩
  · exact (loadQuizState_spec [("quiz_a", ⟨0, .vnull⟩)] "a" 86340000).2.1
      ⟨0, .vnull⟩ rfl (by decide)
  · exact ((loadQuizState_spec [("quiz_b", ⟨0, .vnull⟩)] "b" 86401000).2.2
      ⟨0, .vnull⟩ rfl (by decide)).trans rfl
  · exact (loadQuizState_spec [] "c" 0).1 rfl

theorem multiIsCorrect_vstr (correct sel : List String) :
    multiIsCorrect correct (.varr (sel.map JVal.vstr)) =
      .ok ((correct.map jsUpper).length == (sel.map jsUpper).length &&
           (correct.map jsUpper).all (fun a => (sel.map jsUpper).contains a)) := by
  unfold multiIsCorrect multiUserSelections
  rw [mapJs_vstr_toUpper]
  rfl

theorem length_all_contains_iff (A B : List String) (hA : A.Nodup) (hB : B.Nodup) :
    (A.length == B.length && A.all (fun a => B.contains a)) = true ↔
      B.toFinset = A.toFinset := by
  constructor
  · intro h
    rw [Bool.and_eq_true] at h
    obtain ⟨hlen, hall⟩ := h
    have hlen' : A.length = B.length := beq_iff_eq.mp hlen
    have hsub : A.toFinset ⊆ B.toFinset := by
      intro x hx
      rw [List.mem_toFinset] at hx ⊢
      have hc := List.all_eq_true.mp hall x hx
      simpa using hc
    have hcard : B.toFinset.card ≤ A.toFinset.card := by
      rw [List.toFinset_card_of_nodup hA, List.toFinset_card_of_nodup hB, hlen']
    exact (Finset.eq_of_subset_of_card_le hsub hcard).symm
  · intro h
    rw [Bool.and_eq_true]
    constructor
    · apply beq_iff_eq.mpr
      rw [← List.toFinset_card_of_nodup hA, ← List.toFinset_card_of_nodup hB, h]
    · rw [List.all_eq_true]
      intro x hx
      have : x ∈ B := by
        rw [← List.mem_toFinset, h, List.mem_toFinset]
        exact hx
      simpa using this

/-- C3 (amended): for correct keys and a submitted selection whose
case-normalized forms are each duplicate-free, the multi-answer check of
`gradeQuiz` marks the submission correct iff the case-normalized submitted
set is exactly the case-normalized correct-key set, and incorrect iff it is
not — no partial credit in either direction. The duplicate-freedom proviso
is forced by the counterexample: with duplicates the code's length
comparison diverges from set equality. -/
theorem multiIsCorrect_iff_set_eq (correct sel : List String)
    (hc : (correct.map jsUpper).Nodup) (hs : (sel.map jsUpper).Nodup) :
    (multiIsCorrect correct (.varr (sel.map JVal.vstr)) = .ok true ↔
      (sel.map jsUpper).toFinset = (correct.map jsUpper).toFinset) ∧
    (multiIsCorrect correct (.varr (sel.map JVal.vstr)) = .ok false ↔
      (sel.map jsUpper).toFinset ≠ (correct.map jsUpper).toFinset) := by
  rw [multiIsCorrect_vstr]
  have hiff := length_all_contains_iff (correct.map jsUpper) (sel.map jsUpper) hc hs
  cases hb : ((correct.map jsUpper).length == (sel.map jsUpper).length &&
      (correct.map jsUpper).all (fun a => (sel.map jsUpper).contains a)) with
  | true =>
    have heq := hiff.mp hb
    constructor
    · simp [heq]
    · simp [heq]
  | false =>
    have hne : ¬ (sel.map jsUpper).toFinset = (correct.map jsUpper).toFinset := by
      intro heq
      rw [hiff.mpr heq] at hb
      exact Bool.noConfusion hb
    constructor
    · simp [hne]
    · simp [hne]

/-- C3 witness: with correct keys `{A, C}`, submitting `{C, A}` (any
order) is correct, while `{A}` (one missing) and `{A, C, D}` (one extra)
are incorrect. -/
theorem multiIsCorrect_iff_set_eq_witness :
    multiIsCorrect ["A", "C"] (.varr [.vstr "C", .vstr "A"]) = .ok true ∧
    multiIsCorrect ["A", "C"] (.varr [.vstr "A"]) = .ok false ∧
    multiIsCorrect ["A", "C"] (.varr [.vstr "A", .vstr "C", .vstr "D"]) = .ok false := by
  refine ⟨?_, ?_, ?_⟩
  · exact (multiIsCorrect_iff_set_eq ["A", "C"] ["C", "A"]
      (by decide) (by decide)).1.mpr (by decide)
  · exact (multiIsCorrect_iff_set_eq ["A", "C"] ["A"]
      (by decide) (by decide)).2.mpr (by decide)
  · exact (multiIsCorrect_iff_set_eq ["A", "C"] ["A", "C", "D"]
      (by decide) (by decide)).2.mpr (by decide)

/-- C3 counterexample: with correct keys `{A, C}` (from the keys `a`, `c`
of `answer_option_text`), the submission `["A", "C", "C"]` equals `{A, C}`
as a case-normalized set, yet `gradeQuiz` marks the question incorrect
(score 0): the code compares list lengths, not sets, so the claim as
stated — correct iff the submitted set equals the correct set — fails. -/
theorem gradeQuiz_multi_set_equal_marked_incorrect :
    (∃ r, gradeQuiz [exampleC3] (.vobj [("0", .varr [.vstr "A", .vstr "C", .vstr "C"])]) =
        .ok r ∧ r.score = 0) ∧
    (["A", "C", "C"].map jsUpper).toFinset = (["A", "C"].map jsUpper).toFinset ∧
    getCorrectAnswers exampleC3 = .ok ["A", "C"] := by
  refine ⟨⟨_, rfl, rfl⟩, by decide, rfl⟩

theorem getCorrectAnswers_ok_of_string_ao {q : JVal}
    (hao : ∃ s, getProp q "answer_option" = .vstr s) :
    ∃ cs, getCorrectAnswers q = .ok cs := by
  obtain ⟨s, hs⟩ := hao
  unfold getCorrectAnswers
  by_cases hcond : (truthy (getProp q "answer_option_text") &&
      isObjectType (getProp q "answer_option_text")) = true
  · rw [if_pos hcond]
    exact ⟨_, rfl⟩
  · rw [if_neg hcond]
    by_cases htr : truthy (getProp q "answer_option") = true
    · rw [if_pos htr, hs]
      exact ⟨_, rfl⟩
    · rw [if_neg htr]
      exact ⟨_, rfl⟩

theorem singleIsCorrect_falsy {q a : JVal} (h : truthy a = false) :
    singleIsCorrect q a = .ok false := by
  unfold singleIsCorrect
  rw [h]
  rfl

theorem multiUserSelections_empty {a : JVal}
    (h : a = .vundefined ∨ a = .vstr "" ∨ a = .varr []) :
    multiUserSelections a = [] := by
  rcases h with rfl | rfl | rfl <;> rfl

theorem multiIsCorrect_empty_selection {cs : List String} {a : JVal}
    (hne : cs ≠ []) (hsel : multiUserSelections a = []) :
    multiIsCorrect cs a = .ok false := by
  unfold multiIsCorrect
  rw [hsel]
  cases cs with
  | nil => exact absurd rfl hne
  | cons c cs' => simp [mapJs, Bind.bind, Except.bind]

theorem explanationFor_multi_ok {q : JVal} (hm : isMultiAnswerQuestion q = true) :
    ∃ ev, explanationFor q true = .ok ev := by
  cases ht : truthy (getProp q "answer_option_text") with
  | false =>
    exfalso
    unfold isMultiAnswerQuestion at hm
    simp [ht] at hm
  | true =>
    have hobj : isObjectType (getProp q "answer_option_text") = true := by
      unfold isMultiAnswerQuestion at hm
      by_cases hb : isObjectType (getProp q "answer_option_text") = true
      · exact hb
      · exfalso
        simp [ht, hb] at hm
    unfold explanationFor
    cases haot : getProp q "answer_option_text" with
    | vstr s =>
        rw [haot] at ht
        rw [ht]
        exact ⟨_, rfl⟩
    | vundefined => rw [haot] at ht; simp [truthy] at ht
    | vnull => rw [haot] at ht; simp [truthy] at ht
    | vbool b => rw [haot] at hobj; simp [isObjectType] at hobj
    | vnum n => rw [haot] at hobj; simp [isObjectType] at hobj
    | varr l =>
        rw [haot] at ht
        rw [ht]
        exact ⟨_, rfl⟩
    | vobj fields =>
        rw [haot] at ht
        rw [ht]
        exact ⟨_, rfl⟩

theorem explanationFor_single_ok {q : JVal}
    (hao : ∃ s, getProp q "answer_option" = .vstr s) :
    ∃ ev, explanationFor q false = .ok ev := by
  obtain ⟨s, hs⟩ := hao
  unfold explanationFor
  cases ht : truthy (getProp q "answer_option_text") with
  | false => exact ⟨_, rfl⟩
  | true =>
    cases haot : getProp q "answer_option_text" with
    | vstr t => exact ⟨_, rfl⟩
    | vundefined => rw [haot] at ht; simp [truthy] at ht
    | vnull => rw [haot] at ht; simp [truthy] at ht
    | vbool b => exact ⟨_, rfl⟩
    | vnum n => exact ⟨_, rfl⟩
    | varr l =>
        rw [hs]
        exact ⟨_, rfl⟩
    | vobj fields =>
        rw [hs]
        exact ⟨_, rfl⟩

theorem mapJs_getOptionText_vstr_ok (q : JVal) (cs : List String) :
    ∃ ts, mapJs (fun a => getOptionText q (.vstr a)) cs = .ok ts := by
  induction cs with
  | nil => exact ⟨[], rfl⟩
  | cons c cs' ih =>
    obtain ⟨v, hv⟩ := getOptionText_vstr_ok q c
    obtain ⟨ts, hts⟩ := ih
    exact ⟨v :: ts, by simp [mapJs, hv, hts, Bind.bind, Except.bind]⟩

theorem getOptionText_varr_empty_ok {q : JVal}
    (hqo : ∀ fields, getProp q "question_option" ≠ .vobj fields) :
    ∃ v, getOptionText q (.varr []) = .ok v := by
  unfold getOptionText
  cases hq : getProp q "question_option" with
  | vobj fields => exact absurd hq (hqo fields)
  | vundefined => exact ⟨_, rfl⟩
  | vnull => exact ⟨_, rfl⟩
  | vbool b => cases b <;> exact ⟨_, rfl⟩
  | vnum n =>
      exact ⟨.vstr "", by by_cases hn : n = 0 <;> simp [truthy, hn]⟩
  | vstr t =>
      exact ⟨.vstr "", by by_cases hst : t = "" <;> simp [truthy, hst]⟩
  | varr l =>
      cases hf : l.find? (fun opt =>
          truthy opt && isObjectType opt && strictEq (getProp opt "option") (.varr [])) with
      | none => exact ⟨.vstr "", by simp [hf]⟩
      | some opt =>
          refine ⟨if truthy (getProp opt "option_text") then getProp opt "option_text"
                 else .vstr "", ?_⟩
          dsimp only
          rw [hf]
          rfl

/-- C4 (amended): for a question whose `answer_option` is a string, grading
an entry that is absent (`undefined`) or the empty string marks the
question incorrect and returns normally, and an empty-array entry does too
for a multi-answer question whose options are not in the legacy object
form. The provisos are forced by the counterexample: a single-answer
question with an empty-array entry (and likewise a legacy-object-options
multi-answer question with an empty-array entry, whose display lookup
lower-cases the array) makes `gradeQuiz` raise a `TypeError` instead. -/
theorem gradeQuestion_unanswered_incorrect (q a : JVal)
    (hao : ∃ s, getProp q "answer_option" = .vstr s)
    (ha : a = .vundefined ∨ a = .vstr "" ∨
      (a = .varr [] ∧ isMultiAnswerQuestion q = true ∧
        ∀ fields, getProp q "question_option" ≠ .vobj fields)) :
    ∃ res, gradeQuestion q a = .ok res ∧ res.isCorrect = false := by
  cases hm : isMultiAnswerQuestion q with
  | true =>
    obtain ⟨hok, hlen⟩ := isMulti_getCorrectAnswers hm
    have hne : (objKeys (getProp q "answer_option_text")).map jsUpper ≠ [] := by
      intro hnil
      rw [List.map_eq_nil_iff] at hnil
      rw [hnil] at hlen
      simp at hlen
    have hmu : multiUserSelections a = [] := by
      apply multiUserSelections_empty
      rcases ha with rfl | rfl | ⟨rfl, _, _⟩
      · exact Or.inl rfl
      · exact Or.inr (Or.inl rfl)
      · exact Or.inr (Or.inr rfl)
    have hmic := multiIsCorrect_empty_selection hne hmu
    obtain ⟨ev, hev⟩ := explanationFor_multi_ok hm
    obtain ⟨ts, hts⟩ :=
      mapJs_getOptionText_vstr_ok q ((objKeys (getProp q "answer_option_text")).map jsUpper)
    rcases ha with rfl | rfl | ⟨rfl, _, hqo⟩
    · simp only [gradeQuestion, hm, hok, hmic, hev, hts, Bind.bind, Except.bind, if_true]
      exact ⟨_, rfl, rfl⟩
    · simp only [gradeQuestion, hm, hok, hmic, hev, hts, Bind.bind, Except.bind, if_true]
      exact ⟨_, rfl, rfl⟩
    · obtain ⟨ut, hut⟩ := getOptionText_varr_empty_ok hqo
      simp only [gradeQuestion, hm, hok, hmic, hev, hts, hut, Bind.bind, Except.bind, if_true]
      exact ⟨_, rfl, rfl⟩
  | false =>
    obtain ⟨cs, hcs⟩ := getCorrectAnswers_ok_of_string_ao hao
    have hfalsy : truthy a = false := by
      rcases ha with rfl | rfl | ⟨_, hm', _⟩
      · rfl
      · rfl
      · rw [hm] at hm'
        exact Bool.noConfusion hm'
    have hsic : singleIsCorrect q a = .ok false := singleIsCorrect_falsy hfalsy
    obtain ⟨ev, hev⟩ := explanationFor_single_ok hao
    obtain ⟨s, hs⟩ := hao
    obtain ⟨cat, hcat⟩ := getOptionText_vstr_ok q s
    simp only [gradeQuestion, hm, hcs, hsic, hev, hs, hcat, hfalsy, Bind.bind, Except.bind,
      Bool.false_eq_true, if_false]
    exact ⟨_, rfl, rfl⟩

/-- C4 witness: an unanswered (absent-entry) single-answer question is
graded incorrect without error. -/
theorem gradeQuestion_unanswered_incorrect_witness :
    ∃ res, gradeQuestion exampleC4 .vundefined = .ok res ∧ res.isCorrect = false :=
  gradeQuestion_unanswered_incorrect exampleC4 .vundefined ⟨"A", rfl⟩ (Or.inl rfl)

/-- C4 counterexample: grading a single-answer question whose answer entry
is the empty array raises a `TypeError` — the truthy `[]` is lower-cased by
the single-answer comparison — so `gradeQuiz` is not total over answer maps
containing empty arrays, contradicting "never raises an error". -/
theorem gradeQuiz_single_empty_array_raises :
    ∃ msg, gradeQuiz [exampleC4] (.vobj [("0", .varr [])]) = .error msg :=
  ⟨_, rfl⟩

theorem getProp_prepared_options (fs : List (String × JVal)) (x1 x2 x3 : JVal) :
    getProp (setProp (setProp (setProp (.vobj fs) "question_option" x1)
      "original_options" x2) "isMultiAnswer" x3) "question_option" = x1 := by
  simp only [setProp, getProp]
  rw [assocGet_assocSet_ne _ _ _ _ (by decide), assocGet_assocSet_ne _ _ _ _ (by decide),
    assocGet_assocSet_self]
  rfl

theorem getProp_setProp_isMulti (fs : List (String × JVal)) (x : JVal) (key : String)
    (h : key ≠ "isMultiAnswer") :
    getProp (setProp (.vobj fs) "isMultiAnswer" x) key = getProp (.vobj fs) key := by
  simp only [setProp, getProp]
  rw [assocGet_assocSet_ne _ _ _ _ h]

/-- C9: for every outcome of the random draws, the canonical option-key
multiset of a prepared question equals that of the original question, in
both the array and the legacy object encoding (legacy keys upper-cased):
shuffling permutes the options, never drops or duplicates one. -/
theorem prepareQuestion_keys_multiset (rand : Nat → Nat) (question : JVal) :
    ((canonicalOptionKeys (prepareQuestionForDisplay rand question) : List JVal) : Multiset JVal) =
      ((canonicalOptionKeys question : List JVal) : Multiset JVal) := by
  unfold prepareQuestionForDisplay
  cases hqo : getProp question "question_option" with
  | vundefined => rfl
  | vnull => rfl
  | vbool b =>
      cases b with
      | false => rfl
      | true =>
          obtain ⟨fs, rfl⟩ := truthy_getProp_vobj
            (show truthy (getProp question "question_option") = true by rw [hqo]; rfl)
          show ((canonicalOptionKeys (setProp (JVal.vobj fs) "isMultiAnswer"
              (JVal.vbool (isMultiAnswerQuestion (JVal.vobj fs)))) : List JVal) :
              Multiset JVal) = _
          unfold canonicalOptionKeys
          rw [getProp_setProp_isMulti fs _ _ (by decide), hqo]
  | vnum n =>
      by_cases hn : n = 0
      · subst hn
        rfl
      · obtain ⟨fs, rfl⟩ := truthy_getProp_vobj
          (show truthy (getProp question "question_option") = true by
            rw [hqo]; simp [truthy, hn])
        have htr : truthy (JVal.vnum n) = true := by simp [truthy, hn]
        rw [htr]
        show ((canonicalOptionKeys (setProp (JVal.vobj fs) "isMultiAnswer"
            (JVal.vbool (isMultiAnswerQuestion (JVal.vobj fs)))) : List JVal) :
            Multiset JVal) = _
        unfold canonicalOptionKeys
        rw [getProp_setProp_isMulti fs _ _ (by decide), hqo]
  | vstr t =>
      by_cases ht : t = ""
      · subst ht
        rfl
      · obtain ⟨fs, rfl⟩ := truthy_getProp_vobj
          (show truthy (getProp question "question_option") = true by
            rw [hqo]; simp [truthy, ht])
        have htr : truthy (JVal.vstr t) = true := by simp [truthy, ht]
        rw [htr]
        show ((canonicalOptionKeys (setProp (JVal.vobj fs) "isMultiAnswer"
            (JVal.vbool (isMultiAnswerQuestion (JVal.vobj fs)))) : List JVal) :
            Multiset JVal) = _
        unfold canonicalOptionKeys
        rw [getProp_setProp_isMulti fs _ _ (by decide), hqo]
  | varr opts =>
      obtain ⟨fs, rfl⟩ := truthy_getProp_vobj
        (show truthy (getProp question "question_option") = true by rw [hqo]; rfl)
      show ((canonicalOptionKeys (setProp (setProp (setProp (JVal.vobj fs) "question_option"
          (.varr (shuffleArray rand opts))) "original_options" (.varr opts)) "isMultiAnswer"
          (JVal.vbool (isMultiAnswerQuestion (JVal.vobj fs)))) : List JVal) : Multiset JVal) = _
      unfold canonicalOptionKeys
      rw [getProp_prepared_options, hqo]
      exact congrArg (Multiset.map (fun o => getProp o "option")) (shuffleArray_coe rand opts)
  | vobj fields =>
      obtain ⟨fs, rfl⟩ := truthy_getProp_vobj
        (show truthy (getProp question "question_option") = true by rw [hqo]; rfl)
      show ((canonicalOptionKeys (setProp (setProp (setProp (JVal.vobj fs) "question_option"
          (.varr (shuffleArray rand (fields.map
            (fun p => JVal.vobj [("option", .vstr (jsUpper p.1)), ("option_text", p.2)])))))
          "original_options" (.vobj fields)) "isMultiAnswer"
          (JVal.vbool (isMultiAnswerQuestion (JVal.vobj fs)))) : List JVal) : Multiset JVal) = _
      unfold canonicalOptionKeys
      rw [getProp_prepared_options, hqo]
      have h1 := congrArg (Multiset.map (fun o => getProp o "option"))
        (shuffleArray_coe rand (fields.map
          (fun p => JVal.vobj [("option", .vstr (jsUpper p.1)), ("option_text", p.2)])))
      refine h1.trans ?_
      show (((fields.map (fun p => JVal.vobj [("option", .vstr (jsUpper p.1)),
          ("option_text", p.2)])).map (fun o => getProp o "option") : List JVal) :
          Multiset JVal) = _
      rw [List.map_map]
      rfl

theorem mem_of_assocGet [DecidableEq κ] {l : List (κ × ω)} {k : κ} {w : ω}
    (h : assocGet l k = some w) : (k, w) ∈ l := by
  induction l with
  | nil => exact absurd h (by simp [assocGet])
  | cons p ps ih =>
    by_cases hp : p.1 = k
    · rw [assocGet, if_pos hp] at h
      have hw : w = p.2 := (Option.some.inj h).symm
      subst hw
      rw [← hp]
      exact List.mem_cons_self _ _
    · rw [assocGet, if_neg hp] at h
      exact List.mem_cons_of_mem _ (ih h)

theorem selectMultiOption_mem {ua : List (Nat × JVal)} {idx : Nat} {v : String} {c : Bool}
    (hua : ∀ p ∈ ua, (∃ s, p.2 = JVal.vstr s) ∨
      (∃ l, p.2 = JVal.varr l ∧ ∀ x ∈ l, ∃ s, x = JVal.vstr s))
    {p : Nat × JVal} (hp : p ∈ selectMultiOption ua idx v c) :
    p ∈ ua ∨ (p.1 = idx ∧ ∃ l, p.2 = JVal.varr l ∧ ∀ x ∈ l, ∃ s, x = JVal.vstr s) := by
  unfold selectMultiOption at hp
  rcases mem_assocSet hp with hmem | rfl
  · exact Or.inl hmem
  · right
    refine ⟨rfl, _, rfl, ?_⟩
    intro x hx
    have harr : ∀ y ∈ (match (assocGet ua idx).getD JVal.vundefined with
        | JVal.varr l => l
        | _ => []), ∃ s, y = JVal.vstr s := by
      cases hcur : assocGet ua idx with
      | none => intro y hy; simp at hy
      | some w =>
        cases w with
        | varr l =>
            intro y hy
            rcases hua (idx, .varr l) (mem_of_assocGet hcur) with ⟨s, hs⟩ | ⟨l', hl', hstr⟩
            · exact absurd hs (by simp)
            · have : l' = l := JVal.varr.inj hl'.symm
              subst this
              exact hstr y hy
        | vundefined => intro y hy; simp at hy
        | vnull => intro y hy; simp at hy
        | vbool b => intro y hy; simp at hy
        | vnum m => intro y hy; simp at hy
        | vstr s => intro y hy; simp at hy
        | vobj fields => intro y hy; simp at hy
    cases c with
    | true =>
        simp only [if_true] at hx
        by_cases hany : ((match (assocGet ua idx).getD JVal.vundefined with
            | JVal.varr l => l
            | _ => []).any (fun y => strictEq y (.vstr v))) = true
        · rw [if_pos hany] at hx
          exact harr x hx
        · rw [if_neg hany] at hx
          rcases List.mem_append.mp hx with hx | hx
          · exact harr x hx
          · exact ⟨v, List.mem_singleton.mp hx⟩
    | false =>
        simp only [Bool.false_eq_true, if_false] at hx
        exact harr x (List.mem_of_mem_filter hx)

/-- C8 (amended): in every reachable answers state the keys are valid
question indices of the attempt and every value is a string (a
single-answer selection) or an array of string selections — but the array
may be empty: a fully deselected multi-answer question keeps an
empty-array entry rather than losing its entry (see the counterexample,
which the claim's "values are never empty collections" rules out). -/
theorem reachable_answers_invariant (n : Nat) (ua : List (Nat × JVal))
    (h : ReachableAnswers n ua) :
    ∀ p ∈ ua, p.1 < n ∧
      ((∃ s, p.2 = JVal.vstr s) ∨
       (∃ l, p.2 = JVal.varr l ∧ ∀ x ∈ l, ∃ s, x = JVal.vstr s)) := by
  induction h with
  | init => intro p hp; simp at hp
  | select hprev hidx ih =>
    intro p hp
    rcases mem_assocSet hp with hmem | rfl
    · exact ih p hmem
    · exact ⟨hidx, Or.inl ⟨_, rfl⟩⟩
  | selectMulti hprev hidx ih =>
    intro p hp
    rcases selectMultiOption_mem (fun p hp => (ih p hp).2) hp with hmem | ⟨hk, hval⟩
    · exact ih p hmem
    · exact ⟨hk ▸ hidx, Or.inr hval⟩

/-- C8 witness: after one single-answer selection at a valid index the
invariant holds for the stored entry. -/
theorem reachable_answers_invariant_witness :
    (0 : Nat) < 2 ∧
      ((∃ s, JVal.vstr "A" = JVal.vstr s) ∨
       (∃ l, JVal.vstr "A" = JVal.varr l ∧ ∀ x ∈ l, ∃ s, x = JVal.vstr s)) := by
  have h1 : ReachableAnswers 2 (selectOption [] 0 "A") :=
    .select .init (by omega)
  have h2 := reachable_answers_invariant 2 (selectOption [] 0 "A") h1
    (0, JVal.vstr "A") (List.Mem.head _)
  exact h2

/-- C8 counterexample: checking option `A` on a multi-answer question and
then unchecking it reaches a state whose entry at index 0 is the empty
array: the answers map does hold an empty-collection value, contradicting
the claimed invariant (even its weaker "no empty-array entry" form). -/
theorem reachable_empty_array_entry :
    ReachableAnswers 1 [(0, JVal.varr [])] ∧
    assocGet [(0, JVal.varr [])] 0 = some (JVal.varr []) := by
  constructor
  · have h0 : ReachableAnswers 1 ([] : List (Nat × JVal)) := .init
    have h1 : ReachableAnswers 1 (selectMultiOption [] 0 "A" true) :=
      .selectMulti h0 (by omega)
    have h2 : ReachableAnswers 1
        (selectMultiOption (selectMultiOption [] 0 "A" true) 0 "A" false) :=
      .selectMulti h1 (by omega)
    exact h2
  · rfl
